import Mathlib

/-!
Verification of the SSM patch notification automation scripts
(`Pre-patch.py`, `post-patch-notification.py`, `combined_notification.py`).

The Python code is shallowly embedded: every remote (boto3) call is an
oracle function stored in an environment structure, pagination is a list
of pages, Python exceptions that can escape a function are modelled with
`Except`, and Python's `json.loads` is an oracle `String → Option JsonVal`
(`none` models a `json.JSONDecodeError`, which the code catches).
-/

/-- A JSON value, as produced by `json.loads`: objects are association
lists, arrays are lists. -/
inductive JsonVal where
  | obj : List (String × JsonVal) → JsonVal
  | arr : List JsonVal → JsonVal
  | str : String → JsonVal
  | num : Int → JsonVal
  | bool : Bool → JsonVal
  | null : JsonVal

/-- Python exceptions that the status-aggregation code can raise (and does
not catch). -/
inductive PyError where
  | attributeError : PyError
  | typeError : PyError
deriving DecidableEq, Repr

/-- The raw value stored under an invocation's `Parameters` key: either a
Python string or some non-string value. -/
inductive PyParam where
  | str : String → PyParam
  | nonStr : PyParam

/-- Python `s.startswith(pre)`, computed structurally on the character
lists (extensionally the same test as `String.startsWith`, which is
defined by well-founded recursion and therefore does not reduce). -/
def pyStartsWith (s pre : String) : Bool :=
  pre.data.isPrefixOf s.data

/-- Python `d.get(key, default)`: on a dict, look the key up with a
default; on any non-dict value the attribute lookup of `.get` raises
`AttributeError`. -/
def pyGet (j : JsonVal) (key : String) (default : JsonVal) : Except PyError JsonVal :=
  match j with
  | .obj kvs => .ok ((kvs.lookup key).getD default)
  | _ => .error .attributeError

/-- Python `"Install" in operation` where `operation` is an arbitrary
value produced by JSON navigation: list membership on arrays (element
equality with the string only holds for equal strings), substring test on
strings, key membership on dicts; on other values `in` raises
`TypeError`. -/
def containsInstall (j : JsonVal) : Except PyError Bool :=
  match j with
  | .arr l => .ok (l.any (fun v => match v with
      | .str s => s = "Install"
      | _ => false))
  | .str s => .ok ((s.splitOn "Install").length > 1)
  | .obj kvs => .ok (kvs.any (fun kv => kv.1 = "Install"))
  | _ => .error .typeError

/-- Lines 106–119 of `post-patch-notification.py` (329–342 of
`combined_notification.py`): read `inv.get("Parameters", "")`, and when it
is a non-empty string, `json.loads` it and navigate
`parsed.get("parameters", {}).get("Operation", [])`; a parse failure is
caught and leaves the operation list empty; an absent, empty-string or
non-string payload also leaves it empty (`isinstance` guard). -/
def operationOf (jsonLoads : String → Option JsonVal) (rawParameters : Option PyParam) :
    Except PyError JsonVal :=
  match rawParameters.getD (.str "") with
  | .str s =>
    if s = "" then .ok (.arr [])
    else
      match jsonLoads s with
      | none => .ok (.arr [])
      | some parsed => do
        let p ← pyGet parsed "parameters" (.obj [])
        pyGet p "Operation" (.arr [])
  | .nonStr => .ok (.arr [])

/-- One window execution as returned by
`describe_maintenance_window_executions` (`StartTime` modelled as an
integer timestamp). -/
structure WindowExecution where
  windowExecutionId : String
  startTime : Int
deriving DecidableEq

/-- One task identity as returned by
`describe_maintenance_window_execution_tasks`. -/
structure ExecutionTask where
  taskArn : Option String
  taskExecutionId : String

/-- One invocation identity as returned by
`describe_maintenance_window_execution_task_invocations`. -/
structure TaskInvocation where
  parameters : Option PyParam
  executionId : Option String

/-- One per-host command result as returned by
`list_command_invocations`. -/
structure CommandInvocation where
  status : Option String
  instanceId : Option String

/-- The remote SSM API surface used by `get_patch_status_counts`, as
oracle functions; each paginated call yields a list of pages. -/
structure SsmEnv where
  windowExecutions : String → List WindowExecution
  windowExecutionTasks : String → List ExecutionTask
  taskInvocationPages : String → String → List (List TaskInvocation)
  commandInvocationPages : String → List (List CommandInvocation)
  jsonLoads : String → Option JsonVal

/-- Lines 141–156 of `post-patch-notification.py`: walk the pages of
`list_command_invocations` and classify each per-host status: `"Success"`
increments `success`, a status in `failureStatuses` increments `failure`,
anything else (including an absent status) increments neither. -/
def countCmdPages (failureStatuses : List String)
    (pages : List (List CommandInvocation)) (acc : Nat × Nat) : Nat × Nat :=
  pages.foldl (fun acc page =>
    page.foldl (fun acc cmdInv =>
      match cmdInv.status with
      | some st =>
        if st = "Success" then (acc.1 + 1, acc.2)
        else if st ∈ failureStatuses then (acc.1, acc.2 + 1)
        else acc
      | none => acc) acc) acc

/-- Lines 104–156: process one task invocation: extract the operation
list, skip unless it contains `"Install"`, skip when the command id is
absent or falsy, otherwise count its per-host results. -/
def processInvocation (failureStatuses : List String) (env : SsmEnv)
    (inv : TaskInvocation) (acc : Nat × Nat) : Except PyError (Nat × Nat) := do
  let op ← operationOf env.jsonLoads inv.parameters
  let hasInstall ← containsInstall op
  if !hasInstall then
    pure acc
  else
    match inv.executionId with
    | none => pure acc
    | some commandId =>
      if commandId = "" then pure acc
      else pure (countCmdPages failureStatuses (env.commandInvocationPages commandId) acc)

/-- Lines 89–156: process one task of the selected execution: skip unless
its `TaskArn` is `AWS-RunPatchBaseline`, then walk the paginated
invocations. -/
def processTask (failureStatuses : List String) (env : SsmEnv) (executionId : String)
    (acc : Nat × Nat) (task : ExecutionTask) : Except PyError (Nat × Nat) :=
  if task.taskArn ≠ some "AWS-RunPatchBaseline" then pure acc
  else
    (env.taskInvocationPages executionId task.taskExecutionId).foldlM
      (fun acc page => page.foldlM
        (fun acc inv => processInvocation failureStatuses env inv acc) acc) acc

/-- Stable descending insertion by `startTime`: an element being inserted
comes from earlier in the input than the already-sorted elements, so it
goes before any element with an equal or smaller key. -/
def insertByStartDesc (e : WindowExecution) : List WindowExecution → List WindowExecution
  | [] => [e]
  | a :: rest =>
    if a.startTime > e.startTime then a :: insertByStartDesc e rest
    else e :: a :: rest

/-- `executions.sort(key=lambda x: x["StartTime"], reverse=True)`:
Python's `list.sort` is a stable sort, and a stable descending sort has a
unique result, realised here by stable insertion sort. -/
def sortByStartDesc : List WindowExecution → List WindowExecution
  | [] => []
  | e :: rest => insertByStartDesc e (sortByStartDesc rest)

/-- Lines 60–158 of `post-patch-notification.py` (283–382 of
`combined_notification.py`): `get_patch_status_counts`. The two files
differ only in the tuple of failure statuses, passed here as
`failureStatuses`. -/
def get_patch_status_counts (failureStatuses : List String) (env : SsmEnv)
    (windowId : String) : Except PyError (Nat × Nat) :=
  if !(pyStartsWith windowId "mw-") then .ok (0, 0)
  else
    let executions := env.windowExecutions windowId
    if executions.isEmpty then .ok (0, 0)
    else
      match sortByStartDesc executions with
      | [] => .ok (0, 0)
      | e :: _ =>
        (env.windowExecutionTasks e.windowExecutionId).foldlM
          (processTask failureStatuses env e.windowExecutionId) (0, 0)

/-- The failure-status tuple of `post-patch-notification.py`, lines
150–155. -/
def postPatchFailureStatuses : List String :=
  ["Failed", "TimedOut", "Cancelled", "ExecutionTimedOut"]

/-- The failure-status tuple of `combined_notification.py`, lines
373–379; note the literal is `"In Progress"` with a space. -/
def combinedFailureStatuses : List String :=
  ["Failed", "TimedOut", "Cancelled", "ExecutionTimedOut", "In Progress"]

/-- One target rule inside a maintenance-window target grouping, as
returned by `describe_maintenance_window_targets`: a `Key` string and a
list of `Values`. -/
structure TargetRule where
  key : String
  values : List String
deriving DecidableEq

/-- One target grouping (`mw_target`): its `Targets` list of rules. -/
structure MWTarget where
  targets : List TargetRule
deriving DecidableEq

/-- One resource-group member as returned by `list_group_resources`; the
code reads only `ResourceType`, the identifier is carried as data. -/
structure GroupResource where
  resourceType : String
  resourceId : String
deriving DecidableEq

/-- One EC2 tag filter (`{"Name": "tag:...", "Values": [...]}`). -/
structure TagFilter where
  name : String
  values : List String
deriving DecidableEq

/-- The remote API surface used by `get_target_count`:
`describe_maintenance_window_targets`, the `list_group_resources`
paginator (pages of resources) and the `describe_instances` paginator
(pages of reservations of instance ids). -/
structure TargetEnv where
  maintenanceWindowTargets : String → List MWTarget
  listGroupResourcesPages : String → List (List GroupResource)
  describeInstancesPages : List TagFilter → List (List (List String))

/-- One remote query issued while resolving a window's target count. -/
inductive TargetQuery where
  | listGroupResources : String → TargetQuery
  | describeInstances : List TagFilter → TargetQuery
deriving DecidableEq

/-- Lines 86–93 of `Pre-patch.py`: count, over all pages of a resource
group's members, those whose `ResourceType` is `AWS::EC2::Instance`. -/
def countGroupPages (pages : List (List GroupResource)) : Nat :=
  pages.foldl (fun c page =>
    page.foldl (fun c r =>
      if r.resourceType = "AWS::EC2::Instance" then c + 1 else c) c) 0

/-- Lines 100–106 of `Pre-patch.py`: accumulate the instance ids of all
pages of the `describe_instances` reply into a set (modelled as a
duplicate-free list via `List.insert`). -/
def collectInstanceIds (pages : List (List (List String))) : List String :=
  pages.foldl (fun acc page =>
    page.foldl (fun acc reservation =>
      reservation.foldl (fun acc i => acc.insert i) acc) acc) []

/-- Lines 62–96 of `Pre-patch.py`: the per-rule dispatch inside one
target grouping. State: (running total, collected tag filters, queries
issued so far). `InstanceIds` adds the list length; `tag:*` collects a
filter; `resource-groups:Name` pages each group immediately; anything
else is logged and skipped. -/
def processRule (env : TargetEnv) (acc : Nat × List TagFilter × List TargetQuery)
    (rule : TargetRule) : Nat × List TagFilter × List TargetQuery :=
  if rule.key = "InstanceIds" then
    (acc.1 + rule.values.length, acc.2.1, acc.2.2)
  else if pyStartsWith rule.key "tag:" then
    let tagKey := ((rule.key.splitOn "tag:").getD 1 "")
    (acc.1, acc.2.1 ++ [⟨"tag:" ++ tagKey, rule.values⟩], acc.2.2)
  else if rule.key = "resource-groups:Name" then
    rule.values.foldl (fun acc g =>
      (acc.1 + countGroupPages (env.listGroupResourcesPages g), acc.2.1,
        acc.2.2 ++ [.listGroupResources g])) acc
  else acc

/-- Lines 57–108 of `Pre-patch.py`: process one target grouping: run the
per-rule dispatch, then, when tag filters were collected, issue one
combined `describe_instances` query and add the size of the deduplicated
id set. -/
def processTarget (env : TargetEnv) (acc : Nat × List TargetQuery)
    (t : MWTarget) : Nat × List TargetQuery :=
  let step := t.targets.foldl (processRule env) (acc.1, [], acc.2)
  if step.2.1.isEmpty then (step.1, step.2.2)
  else
    let ids := collectInstanceIds (env.describeInstancesPages step.2.1)
    (step.1 + ids.length, step.2.2 ++ [.describeInstances step.2.1])

/-- Lines 49–111 of `Pre-patch.py` (71–133 of
`combined_notification.py`): `get_target_count`, instrumented to also
return the list of host-listing / group-membership queries issued. -/
def get_target_count (env : TargetEnv) (windowId : String) : Nat × List TargetQuery :=
  (env.maintenanceWindowTargets windowId).foldl (processTarget env) (0, [])

/-- Nanoseconds per day; instants are modelled as integer nanoseconds
since the epoch, UTC. Python's `datetime` comparisons coincide with the
integer comparisons on its representable instants. -/
def nsPerDay : Int := 86400000000000

/-- Line 39 of `Pre-patch.py`:
`now_utc.replace(hour=0, minute=0, second=0, microsecond=0)` — truncate
an instant to the start of its UTC calendar day. -/
def startOfDayUtc (now : Int) : Int := now - now % nsPerDay

/-- Lines 25–45 of `Pre-patch.py` (47–67 of `combined_notification.py`):
`runs_today`, on an already-normalized timezone-aware instant: true iff
the instant lies in `[start_of_today, start_of_today + 1 day)`. -/
def runs_today (nowUtc t : Int) : Bool :=
  let startOfToday := startOfDayUtc nowUtc
  let endOfToday := startOfToday + nsPerDay
  decide (startOfToday ≤ t ∧ t < endOfToday)

/-- The (account id, role name, region) triple of one row of the staged
pre-patch CSV. -/
structure RowKey where
  accountId : String
  roleName : String
  region : String
deriving DecidableEq

/-- The single-slot session cache of `post_patch_function`
(`cached_session`, `cached_account_id`, `cached_role_name`,
`cached_region`), all initialized to `None` before the row loop. -/
structure CacheState (σ : Type) where
  cachedSession : Option σ
  cachedAccountId : Option String
  cachedRoleName : Option String
  cachedRegion : Option String

/-- The cache before the first row: every slot is `None`. -/
def emptyCache (σ : Type) : CacheState σ :=
  ⟨none, none, none, none⟩

/-- Lines 313–322 of `post-patch-notification.py` (540–549 of
`combined_notification.py`): assume the role only if the cache is empty
or the (account, role, region) triple changed, else reuse the cached
session. Returns the session to use, the updated cache, and the number of
`assume_role` (credential broker) invocations performed (0 or 1). -/
def acquireSession {σ : Type} (broker : String → String → String → σ)
    (st : CacheState σ) (r : RowKey) : σ × CacheState σ × Nat :=
  match st.cachedSession with
  | some s =>
    if st.cachedAccountId = some r.accountId ∧ st.cachedRoleName = some r.roleName ∧
        st.cachedRegion = some r.region then
      (s, st, 0)
    else
      let fresh := broker r.accountId r.roleName r.region
      (fresh, ⟨some fresh, some r.accountId, some r.roleName, some r.region⟩, 1)
  | none =>
    let fresh := broker r.accountId r.roleName r.region
    (fresh, ⟨some fresh, some r.accountId, some r.roleName, some r.region⟩, 1)

/-- Lines 280–324 of `Pre-patch.py` (398–443 of
`combined_notification.py`): the pre-run account loop. For each account
row the handler calls `assume_role` with no surrounding `try`, so a
broker failure propagates as an exception and aborts the whole loop; on
success the account's forecast rows (the window-processing body,
abstracted as `windowRows` since it cannot fail this way) are appended. -/
def lambdaHandlerRows {σ ε ρ : Type} (broker : RowKey → Except ε σ)
    (windowRows : RowKey → σ → List ρ) : List RowKey → Except ε (List ρ)
  | [] => .ok []
  | r :: rest => do
    let s ← broker r
    let rows := windowRows r s
    let more ← lambdaHandlerRows broker windowRows rest
    pure (rows ++ more)

/-- The first execution of the input list whose `startTime` is maximal:
keep the head unless some later execution is strictly later. This is the
specification the sorted-head selection is compared against. -/
def pickFirstMax : List WindowExecution → Option WindowExecution
  | [] => none
  | e :: rest =>
    match pickFirstMax rest with
    | none => some e
    | some b => if b.startTime > e.startTime then some b else some e

/-- Modelled from the spec: "the sum of list lengths across groupings" —
the expected target count when every rule is an `ExplicitIds` list. -/
def specExplicitSum (targets : List MWTarget) : Nat :=
  (targets.map (fun t => (t.targets.map (fun r => r.values.length)).sum)).sum

/-- The JSON value `json.loads` produces for an `Install` invocation's
parameter payload. -/
def installParamsJson : JsonVal :=
  .obj [("parameters", .obj [("Operation", .arr [.str "Install"])])]

/-- The serialized parameter payload of an `Install` invocation. -/
def installParamsText : String :=
  "\x7b\"parameters\": \x7b\"Operation\": [\"Install\"]\x7d\x7d"

/-- Environment for the spec's end-to-end status example: one window
execution, one `AWS-RunPatchBaseline` task, one `Install` invocation
whose per-host command results carry the given statuses. -/
def statusExampleEnv (statuses : List String) : SsmEnv where
  windowExecutions := fun _ => [⟨"exec-1", 100⟩]
  windowExecutionTasks := fun _ => [⟨some "AWS-RunPatchBaseline", "task-1"⟩]
  taskInvocationPages := fun _ _ => [[⟨some (.str installParamsText), some "cmd-1"⟩]]
  commandInvocationPages := fun _ =>
    [statuses.map (fun st => CommandInvocation.mk (some st) (some "i-1"))]
  jsonLoads := fun s => if s = installParamsText then some installParamsJson else none

/-- Environment for the execution-selection claim: two executions with
start times 5 < 9, the older one listed first. -/
def selectionEnv : SsmEnv where
  windowExecutions := fun _ => [⟨"exec-old", 5⟩, ⟨"exec-new", 9⟩]
  windowExecutionTasks := fun _ => []
  taskInvocationPages := fun _ _ => []
  commandInvocationPages := fun _ => []
  jsonLoads := fun _ => none

/-- Environment for the cross-rule double-count claim: one grouping with
one `ResourceGroup` rule (whose group contains host `h` as an EC2
instance) and one `TagFilter` rule (whose query also returns host `h`). -/
def doubleCountEnv (g h : String) (vs : List String) : TargetEnv where
  maintenanceWindowTargets := fun _ =>
    [⟨[⟨"resource-groups:Name", [g]⟩, ⟨"tag:Env", vs⟩]⟩]
  listGroupResourcesPages := fun _ => [[⟨"AWS::EC2::Instance", h⟩]]
  describeInstancesPages := fun _ => [[[h]]]

/-- Environment for the tag-dedup claim: one grouping with a single tag
rule; the instance-listing query returns the given pages. -/
def tagOnlyEnv (pages : List (List (List String))) : TargetEnv where
  maintenanceWindowTargets := fun _ => [⟨[⟨"tag:Env", ["prod"]⟩]⟩]
  listGroupResourcesPages := fun _ => []
  describeInstancesPages := fun _ => pages

/-- Environment for the explicit-ids claim witness: two groupings holding
only `InstanceIds` rules with 2 and 1 listed hosts. -/
def explicitIdsEnv : TargetEnv where
  maintenanceWindowTargets := fun _ =>
    [⟨[⟨"InstanceIds", ["i-1", "i-2"]⟩]⟩, ⟨[⟨"InstanceIds", ["i-3"]⟩]⟩]
  listGroupResourcesPages := fun _ => []
  describeInstancesPages := fun _ => []

/-- A credential broker that denies account `111111111111` and succeeds
for every other account. -/
def denyingBroker : RowKey → Except String Unit := fun r =>
  if r.accountId = "111111111111" then .error "auth-failure:111111111111" else .ok ()

/-- An account's window-processing body that yields one forecast row
labelled with the account id. -/
def accountRowOf : RowKey → Unit → List String := fun r _ => [r.accountId]

/-- Claim C10: an invocation whose `Parameters` key is absent, holds the empty
string, or holds a non-string value is skipped: the operation list is
treated as empty, neither counter changes, no per-host query result is
consulted, and no exception is raised. -/
theorem c10_missingOrNonStringParamsSkipped :
    ∀ (fs : List String) (env : SsmEnv) (acc : Nat × Nat) (eid : Option String),
      processInvocation fs env ⟨none, eid⟩ acc = .ok acc ∧
      processInvocation fs env ⟨some (.str ""), eid⟩ acc = .ok acc ∧
      processInvocation fs env ⟨some .nonStr, eid⟩ acc = .ok acc :=
  fun _ _ _ _ => ⟨rfl, rfl, rfl⟩

/-- Claim C6: `runs_today` accepts exactly the half-open UTC day
`[start_of_today, start_of_today + 24h)`: it is true precisely when the
tested instant falls on the same UTC calendar day as `now`, it rejects
the instant exactly at the next midnight, and it accepts the instant one
nanosecond before that midnight. -/
theorem c6_runsTodayHalfOpenDay :
    ∀ now t : Int,
      (runs_today now t = true ↔ t / nsPerDay = now / nsPerDay) ∧
      runs_today now (startOfDayUtc now + nsPerDay) = false ∧
      runs_today now (startOfDayUtc now + nsPerDay - 1) = true := by
  intro now t
  refine ⟨?_, ?_, ?_⟩ <;>
    simp only [runs_today, startOfDayUtc, nsPerDay, decide_eq_true_eq,
      decide_eq_false_iff_not, not_and, not_lt] <;>
    omega

/-- Claim C2: with one target grouping holding a `ResourceGroup` rule whose
group contains host `h` as an EC2 instance and a `TagFilter` rule whose
query also returns `h`, the resolved total is 2 — the group-membership
count is added immediately and never deduplicated against the tag-filter
result. -/
theorem c2_resourceGroupTagDoubleCount :
    ∀ (g h : String) (vs : List String),
      (get_target_count (doubleCountEnv g h vs) "mw-1").1 = 2 :=
  fun _ _ _ => rfl

/-- Claim C1, counterexample: on the spec's own example statuses
`[Success, Success, Failed, InProgress, Success]` both variants of
`get_patch_status_counts` return `(3, 1)`, not the claimed `(3, 2)`:
the status `"InProgress"` belongs to neither file's failure tuple
(`combined_notification.py` lists the literal `"In Progress"`, with a
space, instead). -/
theorem c1_counterexample :
    get_patch_status_counts postPatchFailureStatuses
        (statusExampleEnv ["Success", "Success", "Failed", "InProgress", "Success"]) "mw-1" =
      .ok (3, 1) ∧
    get_patch_status_counts combinedFailureStatuses
        (statusExampleEnv ["Success", "Success", "Failed", "InProgress", "Success"]) "mw-1" =
      .ok (3, 1) ∧
    ¬ "InProgress" ∈ postPatchFailureStatuses ∧
    ¬ "InProgress" ∈ combinedFailureStatuses ∧
    ((3, 1) : Nat × Nat) ≠ (3, 2) :=
  ⟨rfl, rfl, by decide, by decide, by decide⟩

/-- Claim C7, counterexample: with the broker denying account `111111111111`,
running the pre-run loop over that account followed by account
`222222222222` aborts with the broker's error and produces no rows at
all, although `222222222222` on its own yields a row — the failure is
not contained to the failing account. -/
theorem c7_counterexample :
    lambdaHandlerRows denyingBroker accountRowOf
        [⟨"111111111111", "patch-role", "us-east-1"⟩,
         ⟨"222222222222", "patch-role", "us-east-1"⟩] =
      .error "auth-failure:111111111111" ∧
    lambdaHandlerRows denyingBroker accountRowOf
        [⟨"222222222222", "patch-role", "us-east-1"⟩] =
      .ok ["222222222222"] :=
  ⟨rfl, rfl⟩

lemma exceptBind_ok {ε α β : Type} (a : α) (f : α → Except ε β) :
    (Except.ok a >>= f) = f a := rfl

lemma exceptBind_error {ε α β : Type} (e : ε) (f : α → Except ε β) :
    ((Except.error e : Except ε α) >>= f) = .error e := rfl

/-- Claim C1, amended: for every per-host command invocation result, a status
equal to `"Success"` increments `success` by exactly one, a status in the
file's failure tuple increments `failure` by exactly one, and any other
status — including `"InProgress"`, which belongs to neither file's tuple —
increments neither; on the statuses
`[Success, Success, Failed, InProgress, Success]` both variants therefore
return `(3, 1)`. -/
theorem c1_statusClassification :
    (∀ (fs : List String) (pages : List (List CommandInvocation)) (st : String)
        (iid : Option String) (acc : Nat × Nat),
      countCmdPages fs (pages ++ [[⟨some st, iid⟩]]) acc =
        (if st = "Success" then
          ((countCmdPages fs pages acc).1 + 1, (countCmdPages fs pages acc).2)
        else if st ∈ fs then
          ((countCmdPages fs pages acc).1, (countCmdPages fs pages acc).2 + 1)
        else countCmdPages fs pages acc)) ∧
    get_patch_status_counts postPatchFailureStatuses
        (statusExampleEnv ["Success", "Success", "Failed", "InProgress", "Success"]) "mw-1" =
      .ok (3, 1) ∧
    get_patch_status_counts combinedFailureStatuses
        (statusExampleEnv ["Success", "Success", "Failed", "InProgress", "Success"]) "mw-1" =
      .ok (3, 1) := by
  refine ⟨?_, rfl, rfl⟩
  intro fs pages st iid acc
  simp only [countCmdPages, List.foldl_append, List.foldl_cons, List.foldl_nil]

/-- Claim C8: an invocation whose stored `Parameters` payload is a non-empty
string that `json.loads` rejects is skipped: the operation list is
treated as empty, neither counter changes, no per-host command query
result is consulted, and no exception escapes. -/
theorem c8_unparseableParamsSkipped :
    ∀ (fs : List String) (env : SsmEnv) (inv : TaskInvocation) (acc : Nat × Nat) (s : String),
      inv.parameters = some (.str s) → s ≠ "" → env.jsonLoads s = none →
      processInvocation fs env inv acc = .ok acc := by
  intro fs env inv acc s hp hs hj
  have hop : operationOf env.jsonLoads inv.parameters = .ok (.arr []) := by
    rw [hp]
    simp only [operationOf, Option.getD_some]
    rw [if_neg hs, hj]
  simp only [processInvocation, hop, exceptBind_ok]
  rfl

theorem c8_witness :
    processInvocation postPatchFailureStatuses (statusExampleEnv ["Success"])
        ⟨some (.str "not-json"), some "cmd-1"⟩ (7, 9) = .ok (7, 9) :=
  c8_unparseableParamsSkipped postPatchFailureStatuses (statusExampleEnv ["Success"])
    ⟨some (.str "not-json"), some "cmd-1"⟩ (7, 9) "not-json" rfl (by decide) rfl

/-- Claim C9: the single-slot session cache: when the cached triple matches the
row's triple the cached session is returned with no broker call and the
cache unchanged; when the cache is empty, or the triple differs, the
broker is invoked exactly once, the slot is replaced with the new triple
and session, and the new session is returned. -/
theorem c9_sessionCacheBehaviour :
    ∀ (σ : Type) (broker : String → String → String → σ) (st : CacheState σ) (r : RowKey),
      (∀ s, st.cachedSession = some s →
        st.cachedAccountId = some r.accountId →
        st.cachedRoleName = some r.roleName →
        st.cachedRegion = some r.region →
        acquireSession broker st r = (s, st, 0)) ∧
      (st.cachedSession = none →
        acquireSession broker st r =
          (broker r.accountId r.roleName r.region,
            ⟨some (broker r.accountId r.roleName r.region),
              some r.accountId, some r.roleName, some r.region⟩, 1)) ∧
      ((st.cachedAccountId ≠ some r.accountId ∨ st.cachedRoleName ≠ some r.roleName ∨
          st.cachedRegion ≠ some r.region) →
        acquireSession broker st r =
          (broker r.accountId r.roleName r.region,
            ⟨some (broker r.accountId r.roleName r.region),
              some r.accountId, some r.roleName, some r.region⟩, 1)) := by
  intro σ broker st r
  refine ⟨?_, ?_, ?_⟩
  · intro s h1 h2 h3 h4
    simp [acquireSession, h1, h2, h3, h4]
  · intro h
    simp [acquireSession, h]
  · intro h
    cases hs : st.cachedSession with
    | none => simp [acquireSession, hs]
    | some s =>
      have hcond : ¬(st.cachedAccountId = some r.accountId ∧
          st.cachedRoleName = some r.roleName ∧ st.cachedRegion = some r.region) := by
        tauto
      simp [acquireSession, hs, hcond]

theorem c9_witness :
    acquireSession (fun a _ _ => a) (emptyCache String) ⟨"111", "role-a", "us-east-1"⟩ =
      ("111", ⟨some "111", some "111", some "role-a", some "us-east-1"⟩, 1) ∧
    acquireSession (fun a _ _ => a)
        ⟨some "cached-s", some "111", some "role-a", some "us-east-1"⟩
        ⟨"111", "role-a", "us-east-1"⟩ =
      ("cached-s", ⟨some "cached-s", some "111", some "role-a", some "us-east-1"⟩, 0) ∧
    acquireSession (fun a _ _ => a)
        ⟨some "cached-s", some "111", some "role-a", some "us-east-1"⟩
        ⟨"222", "role-a", "us-east-1"⟩ =
      ("222", ⟨some "222", some "222", some "role-a", some "us-east-1"⟩, 1) :=
  ⟨(c9_sessionCacheBehaviour String (fun a _ _ => a) (emptyCache String)
      ⟨"111", "role-a", "us-east-1"⟩).2.1 rfl,
   (c9_sessionCacheBehaviour String (fun a _ _ => a)
      ⟨some "cached-s", some "111", some "role-a", some "us-east-1"⟩
      ⟨"111", "role-a", "us-east-1"⟩).1 "cached-s" rfl rfl rfl rfl,
   (c9_sessionCacheBehaviour String (fun a _ _ => a)
      ⟨some "cached-s", some "111", some "role-a", some "us-east-1"⟩
      ⟨"222", "role-a", "us-east-1"⟩).2.2 (Or.inl (by decide))⟩

/-- Claim C7, amended: an `assume_role` failure in the pre-run account loop is
fatal for the whole run, not just the failing account: once the broker
fails for one account, the handler aborts with that error, no forecast
rows are returned at all, and the remaining accounts are never
processed. -/
theorem c7_authFailureAbortsRun :
    ∀ (σ ε ρ : Type) (broker : RowKey → Except ε σ) (windowRows : RowKey → σ → List ρ)
      (pass : List RowKey) (a : RowKey) (rest : List RowKey) (err : ε),
      (∀ b ∈ pass, ∃ s, broker b = .ok s) →
      broker a = .error err →
      lambdaHandlerRows broker windowRows (pass ++ a :: rest) = .error err := by
  intro σ ε ρ broker windowRows pass
  induction pass with
  | nil =>
    intro a rest err _ hfail
    simp only [List.nil_append, lambdaHandlerRows]
    rw [hfail, exceptBind_error]
  | cons b bs ih =>
    intro a rest err hok hfail
    obtain ⟨s, hs⟩ := hok b (List.mem_cons_self b bs)
    simp only [List.cons_append, lambdaHandlerRows, List.append_eq]
    rw [hs, exceptBind_ok,
      ih a rest err (fun x hx => hok x (List.mem_cons_of_mem b hx)) hfail,
      exceptBind_error]

theorem c7_amended_witness :
    (∀ b ∈ [RowKey.mk "333333333333" "patch-role" "us-east-1"],
      ∃ s, denyingBroker b = .ok s) ∧
    lambdaHandlerRows denyingBroker accountRowOf
        [⟨"333333333333", "patch-role", "us-east-1"⟩,
         ⟨"111111111111", "patch-role", "us-east-1"⟩,
         ⟨"444444444444", "patch-role", "us-east-1"⟩] =
      .error "auth-failure:111111111111" :=
  ⟨fun b hb => ⟨(), by cases hb with
    | head => rfl
    | tail _ h => cases h⟩,
   c7_authFailureAbortsRun Unit String String denyingBroker accountRowOf
     [⟨"333333333333", "patch-role", "us-east-1"⟩]
     ⟨"111111111111", "patch-role", "us-east-1"⟩
     [⟨"444444444444", "patch-role", "us-east-1"⟩]
     "auth-failure:111111111111"
     (fun b hb => ⟨(), by cases hb with
       | head => rfl
       | tail _ h => cases h⟩)
     rfl⟩

lemma processRule_explicitStep (env : TargetEnv) (acc : Nat × List TagFilter × List TargetQuery)
    (r : TargetRule) (hr : r.key = "InstanceIds") :
    processRule env acc r = (acc.1 + r.values.length, acc.2) := by
  simp [processRule, hr]

lemma foldl_processRule_explicit (env : TargetEnv) :
    ∀ (rules : List TargetRule) (acc : Nat × List TagFilter × List TargetQuery),
      (∀ r ∈ rules, r.key = "InstanceIds") →
      rules.foldl (processRule env) acc =
        (acc.1 + (rules.map (fun r => r.values.length)).sum, acc.2) := by
  intro rules
  induction rules with
  | nil => intro acc _; simp
  | cons r rest ih =>
    intro acc h
    rw [List.foldl_cons, processRule_explicitStep env acc r (h r (List.mem_cons_self r rest)),
      ih _ (fun x hx => h x (List.mem_cons_of_mem r hx))]
    simp [Nat.add_assoc]

lemma foldl_processTarget_explicit (env : TargetEnv) :
    ∀ (ts : List MWTarget) (acc : Nat × List TargetQuery),
      (∀ t ∈ ts, ∀ r ∈ t.targets, r.key = "InstanceIds") →
      ts.foldl (processTarget env) acc = (acc.1 + specExplicitSum ts, acc.2) := by
  intro ts
  induction ts with
  | nil => intro acc _; simp [specExplicitSum]
  | cons t rest ih =>
    intro acc h
    have hstep : processTarget env acc t =
        (acc.1 + (t.targets.map (fun r => r.values.length)).sum, acc.2) := by
      unfold processTarget
      rw [foldl_processRule_explicit env t.targets (acc.1, [], acc.2)
        (h t (List.mem_cons_self t rest))]
      simp
    rw [List.foldl_cons, hstep, ih _ (fun x hx => h x (List.mem_cons_of_mem t hx))]
    simp [specExplicitSum, Nat.add_assoc]

/-- Claim C4: when every rule of every target grouping of a window is an
`InstanceIds` list, `get_target_count` returns exactly the sum of the
lists' lengths across groupings and issues no host-listing or
group-membership query. -/
theorem c4_explicitIdsOnly :
    ∀ (env : TargetEnv) (w : String),
      (∀ t ∈ env.maintenanceWindowTargets w, ∀ r ∈ t.targets, r.key = "InstanceIds") →
      get_target_count env w = (specExplicitSum (env.maintenanceWindowTargets w), []) := by
  intro env w h
  unfold get_target_count
  rw [foldl_processTarget_explicit env _ (0, []) h]
  simp

theorem c4_witness :
    (∀ t ∈ explicitIdsEnv.maintenanceWindowTargets "mw-1",
      ∀ r ∈ t.targets, r.key = "InstanceIds") ∧
    get_target_count explicitIdsEnv "mw-1" = (3, []) :=
  ⟨by decide, (c4_explicitIdsOnly explicitIdsEnv "mw-1" (by decide)).trans (by decide)⟩

lemma mem_foldlInsert :
    ∀ (res acc : List String) (j : String),
      (j ∈ res.foldl (fun a i => a.insert i) acc) ↔ j ∈ acc ∨ j ∈ res := by
  intro res
  induction res with
  | nil => intro acc j; simp
  | cons r rest ih =>
    intro acc j
    rw [List.foldl_cons, ih]
    simp only [List.mem_insert_iff, List.mem_cons]
    tauto

lemma nodup_foldlInsert :
    ∀ (res acc : List String), acc.Nodup → (res.foldl (fun a i => a.insert i) acc).Nodup := by
  intro res
  induction res with
  | nil => intro acc h; exact h
  | cons r rest ih =>
    intro acc h
    rw [List.foldl_cons]
    exact ih _ h.insert

lemma mem_foldlInsertPage :
    ∀ (page : List (List String)) (acc : List String) (j : String),
      (j ∈ page.foldl (fun acc res => res.foldl (fun a i => a.insert i) acc) acc) ↔
        j ∈ acc ∨ j ∈ page.flatten := by
  intro page
  induction page with
  | nil => intro acc j; simp
  | cons res rest ih =>
    intro acc j
    rw [List.foldl_cons, ih, mem_foldlInsert]
    simp only [List.flatten_cons, List.mem_append]
    tauto

lemma nodup_foldlInsertPage :
    ∀ (page : List (List String)) (acc : List String),
      acc.Nodup →
      (page.foldl (fun acc res => res.foldl (fun a i => a.insert i) acc) acc).Nodup := by
  intro page
  induction page with
  | nil => intro acc h; exact h
  | cons res rest ih =>
    intro acc h
    rw [List.foldl_cons]
    exact ih _ (nodup_foldlInsert res acc h)

lemma mem_collectAux :
    ∀ (pages : List (List (List String))) (acc : List String) (j : String),
      (j ∈ pages.foldl
        (fun acc page => page.foldl (fun acc res => res.foldl (fun a i => a.insert i) acc) acc)
        acc) ↔ j ∈ acc ∨ j ∈ pages.flatten.flatten := by
  intro pages
  induction pages with
  | nil => intro acc j; simp
  | cons page rest ih =>
    intro acc j
    rw [List.foldl_cons, ih, mem_foldlInsertPage]
    simp only [List.flatten_cons, List.flatten_append, List.mem_append]
    tauto

lemma nodup_collectAux :
    ∀ (pages : List (List (List String))) (acc : List String),
      acc.Nodup →
      (pages.foldl
        (fun acc page => page.foldl (fun acc res => res.foldl (fun a i => a.insert i) acc) acc)
        acc).Nodup := by
  intro pages
  induction pages with
  | nil => intro acc h; exact h
  | cons page rest ih =>
    intro acc h
    rw [List.foldl_cons]
    exact ih _ (nodup_foldlInsertPage page acc h)

lemma tagOnlyEnv_count (P : List (List (List String))) :
    (get_target_count (tagOnlyEnv P) "mw-1").1 = (collectInstanceIds P).length := by
  have h : (get_target_count (tagOnlyEnv P) "mw-1").1 = 0 + (collectInstanceIds P).length := rfl
  rw [h, Nat.zero_add]

/-- Claim C5: within one grouping the tag-filter query's hosts are accumulated
into a set keyed by host identifier before being counted: the collected
list is duplicate-free, contains exactly the identifiers appearing on any
page, and appending an extra occurrence of an already-returned identifier
changes neither the set nor the grouping's resolved count. -/
theorem c5_tagFilterDedup :
    ∀ (pages : List (List (List String))) (i : String),
      (collectInstanceIds pages).Nodup ∧
      (∀ j, j ∈ collectInstanceIds pages ↔ j ∈ pages.flatten.flatten) ∧
      (i ∈ pages.flatten.flatten →
        collectInstanceIds (pages ++ [[[i]]]) = collectInstanceIds pages ∧
        (get_target_count (tagOnlyEnv (pages ++ [[[i]]])) "mw-1").1 =
          (get_target_count (tagOnlyEnv pages) "mw-1").1) := by
  intro pages i
  refine ⟨nodup_collectAux pages [] List.nodup_nil,
    fun j => (mem_collectAux pages [] j).trans (by simp), fun hi => ?_⟩
  have hmem : i ∈ collectInstanceIds pages :=
    (mem_collectAux pages [] i).mpr (Or.inr hi)
  have heq : collectInstanceIds (pages ++ [[[i]]]) = collectInstanceIds pages := by
    unfold collectInstanceIds
    rw [List.foldl_append]
    simp only [List.foldl_cons, List.foldl_nil]
    exact List.insert_of_mem hmem
  exact ⟨heq, by rw [tagOnlyEnv_count, tagOnlyEnv_count, heq]⟩

theorem c5_witness :
    collectInstanceIds ([[["i-1", "i-2"]], [["i-1"]]] ++ [[["i-1"]]]) =
      collectInstanceIds [[["i-1", "i-2"]], [["i-1"]]] ∧
    (get_target_count (tagOnlyEnv ([[["i-1", "i-2"]], [["i-1"]]] ++ [[["i-1"]]])) "mw-1").1 =
      (get_target_count (tagOnlyEnv [[["i-1", "i-2"]], [["i-1"]]]) "mw-1").1 :=
  ⟨((c5_tagFilterDedup [[["i-1", "i-2"]], [["i-1"]]] "i-1").2.2 (by decide)).1,
   ((c5_tagFilterDedup [[["i-1", "i-2"]], [["i-1"]]] "i-1").2.2 (by decide)).2⟩

lemma pickFirstMax_cons_ne_none (e : WindowExecution) (rest : List WindowExecution) :
    pickFirstMax (e :: rest) ≠ none := by
  simp only [pickFirstMax]
  cases pickFirstMax rest with
  | none => simp
  | some b => by_cases hb : b.startTime > e.startTime <;> simp [hb]

lemma pickFirstMax_eq_none_iff :
    ∀ (l : List WindowExecution), pickFirstMax l = none ↔ l = [] := by
  intro l
  cases l with
  | nil => simp [pickFirstMax]
  | cons e rest => simp [pickFirstMax_cons_ne_none e rest]

lemma head?_insertByStartDesc (e : WindowExecution) (xs : List WindowExecution) :
    (insertByStartDesc e xs).head? =
      some (match xs.head? with
        | none => e
        | some a => if a.startTime > e.startTime then a else e) := by
  cases xs with
  | nil => rfl
  | cons a rest =>
    by_cases h : a.startTime > e.startTime <;> simp [insertByStartDesc, h]

lemma head?_sortByStartDesc :
    ∀ (l : List WindowExecution), (sortByStartDesc l).head? = pickFirstMax l := by
  intro l
  induction l with
  | nil => rfl
  | cons e rest ih =>
    show (insertByStartDesc e (sortByStartDesc rest)).head? = _
    rw [head?_insertByStartDesc, ih]
    cases h : pickFirstMax rest with
    | none => simp [pickFirstMax, h]
    | some b => by_cases hb : b.startTime > e.startTime <;> simp [pickFirstMax, h, hb]

lemma pickFirstMax_spec :
    ∀ (l : List WindowExecution) (sel : WindowExecution),
      pickFirstMax l = some sel →
      sel ∈ l ∧ (∀ e ∈ l, e.startTime ≤ sel.startTime) ∧
      l.find? (fun e => e.startTime == sel.startTime) = some sel := by
  intro l
  induction l with
  | nil => intro sel h; cases h
  | cons e rest ih =>
    intro sel h
    cases hr : pickFirstMax rest with
    | none =>
      have hrest : rest = [] := (pickFirstMax_eq_none_iff rest).mp hr
      subst hrest
      have hsel : sel = e := by
        simp [pickFirstMax] at h
        exact h.symm
      subst hsel
      refine ⟨List.mem_cons_self sel [], ?_, ?_⟩
      · intro x hx
        rcases List.mem_cons.mp hx with h1 | h1
        · rw [h1]
        · cases h1
      · rw [List.find?_cons_of_pos]
        simp
    | some b =>
      obtain ⟨hmem, hbound, hfind⟩ := ih b hr
      by_cases hb : b.startTime > e.startTime
      · have hsel : sel = b := by
          simp [pickFirstMax, hr, hb] at h
          exact h.symm
        subst hsel
        refine ⟨List.mem_cons_of_mem e hmem, ?_, ?_⟩
        · intro x hx
          rcases List.mem_cons.mp hx with h1 | h1
          · rw [h1]; exact le_of_lt hb
          · exact hbound x h1
        · rw [List.find?_cons_of_neg, hfind]
          simp only [beq_iff_eq]
          omega
      · have hsel : sel = e := by
          simp [pickFirstMax, hr, hb] at h
          exact h.symm
        subst hsel
        refine ⟨List.mem_cons_self sel rest, ?_, ?_⟩
        · intro x hx
          rcases List.mem_cons.mp hx with h1 | h1
          · rw [h1]
          · exact le_trans (hbound x h1) (not_lt.mp hb)
        · rw [List.find?_cons_of_pos]
          simp

/-- Claim C3: for a valid window id and a non-empty execution list, exactly one
execution is selected — the head of the stable descending sort — and it
is an execution of maximal `start_time`, the first such execution in
input order (so ties are broken by input order); the function's result
then depends only on that execution's tasks. -/
theorem c3_latestExecutionSelected :
    ∀ (fs : List String) (env : SsmEnv) (w : String),
      pyStartsWith w "mw-" = true →
      env.windowExecutions w ≠ [] →
      ∃ sel : WindowExecution,
        (sortByStartDesc (env.windowExecutions w)).head? = some sel ∧
        sel ∈ env.windowExecutions w ∧
        (∀ e ∈ env.windowExecutions w, e.startTime ≤ sel.startTime) ∧
        (env.windowExecutions w).find? (fun e => e.startTime == sel.startTime) = some sel ∧
        get_patch_status_counts fs env w =
          (env.windowExecutionTasks sel.windowExecutionId).foldlM
            (processTask fs env sel.windowExecutionId) (0, 0) := by
  intro fs env w hw hne
  obtain ⟨sel, hsel⟩ : ∃ sel, pickFirstMax (env.windowExecutions w) = some sel := by
    cases hp : pickFirstMax (env.windowExecutions w) with
    | none => exact absurd ((pickFirstMax_eq_none_iff _).mp hp) hne
    | some b => exact ⟨b, rfl⟩
  obtain ⟨hmem, hbound, hfind⟩ := pickFirstMax_spec _ sel hsel
  have hhead : (sortByStartDesc (env.windowExecutions w)).head? = some sel := by
    rw [head?_sortByStartDesc]
    exact hsel
  refine ⟨sel, hhead, hmem, hbound, hfind, ?_⟩
  have hne' : (env.windowExecutions w).isEmpty = false := by
    cases h : env.windowExecutions w with
    | nil => exact absurd h hne
    | cons a l => rfl
  unfold get_patch_status_counts
  rw [hw]
  simp only [Bool.not_true, Bool.false_eq_true, if_false, hne']
  cases hs : sortByStartDesc (env.windowExecutions w) with
  | nil =>
    rw [hs] at hhead
    cases hhead
  | cons a tail =>
    rw [hs] at hhead
    simp only [List.head?_cons, Option.some.injEq] at hhead
    subst hhead
    rfl

theorem c3_witness :
    get_patch_status_counts postPatchFailureStatuses selectionEnv "mw-1" =
      (selectionEnv.windowExecutionTasks "exec-new").foldlM
        (processTask postPatchFailureStatuses selectionEnv "exec-new") (0, 0) ∧
    (sortByStartDesc (selectionEnv.windowExecutions "mw-1")).head? =
      some ⟨"exec-new", 9⟩ := by
  obtain ⟨sel, h1, h2, h3, h4, h5⟩ :=
    c3_latestExecutionSelected postPatchFailureStatuses selectionEnv "mw-1" rfl (by decide)
  have hconc : (sortByStartDesc (selectionEnv.windowExecutions "mw-1")).head? =
      some (⟨"exec-new", 9⟩ : WindowExecution) := by decide
  have hsel : sel = ⟨"exec-new", 9⟩ := Option.some.inj (h1.symm.trans hconc)
  subst hsel
  exact ⟨h5, h1⟩
